import Mathlib

/-!
Verification of the chess rules engine (board model, pseudo-legal move
generation, legality filter, reversible move executor, attack detection).

The definitions below are a shallow embedding of the TypeScript sources:
`src/board/ChessBoard.ts`, `src/move/LegalMoveFilter.ts`,
`src/movegen/MoveGenerator.ts`, `src/pieces/Piece.ts`, `src/types/Move.ts`,
`src/types/UndoRecord.ts`.

Conventions of the embedding:
* Ranks and files are `Nat` (the TypeScript `Rank`/`File` types restrict them
  to 0..7; theorems add explicit bounds hypotheses where that typing matters).
* Candidate-coordinate arithmetic inside the generators and attack detector is
  done in `Int`, exactly as the TypeScript code computes with plain `number`s
  that may go negative before the bounds checks.
* The board contents are a total function `Nat → Nat → Option Piece`; a write
  is `setPiece`.
* TypeScript exceptions are modelled with `Except ChessBoard ChessBoard`:
  `.error s` carries the state the mutable board object holds at the moment
  the exception is thrown (the TS methods mutate `this` in place, so a caller
  observes that state after catching).  An out-of-range array access in the
  en-passant branch of `makeMove` (TypeScript `this.squares[-1]` followed by
  `.piece`) throws a `TypeError`; it is modelled by the same `.error` exit.
-/

/-- Piece colour (`src/types/colour.ts`). -/
inductive Colour where
  | white
  | black
deriving DecidableEq, Repr

/-- Ternary flips in `ChessBoard.makeMove` and `isKingInCheck`. -/
def toggleColour : Colour → Colour
  | Colour.white => Colour.black
  | Colour.black => Colour.white

/-- Piece kind (`src/pieces/Piece.ts`). -/
inductive PieceType where
  | pawn
  | rook
  | knight
  | bishop
  | queen
  | king
deriving DecidableEq, Repr

/-- A piece is an immutable (type, colour) pair (`src/pieces/Piece.ts`). -/
structure Piece where
  type : PieceType
  colour : Colour
deriving DecidableEq, Repr

/-- Castle side tag, the TypeScript union `"K" | "Q"` in `Move.castle`. -/
inductive CastleSide where
  | K
  | Q
deriving DecidableEq, Repr

/-- A rank/file pair, the TypeScript inline `{ rank, file }` objects. -/
structure Coord where
  rank : Nat
  file : Nat
deriving DecidableEq, Repr

/-- A move (`src/types/Move.ts`); the optional TypeScript fields get their
absent value as default. -/
structure Move where
  fromRank : Nat
  fromFile : Nat
  toRank : Nat
  toFile : Nat
  promotion : Option PieceType := none
  castle : Option CastleSide := none
  enPassant : Bool := false
  isCapture : Bool := false
deriving DecidableEq, Repr

/-- The four castling-rights flags (`src/types/CastlingRights.ts`). -/
structure CastlingRights where
  whiteK : Bool
  whiteQ : Bool
  blackK : Bool
  blackQ : Bool
deriving DecidableEq, Repr

/-- Pre-move snapshot (`src/types/UndoRecord.ts`; the rook piece field is
named `rookPiece` as in `ChessBoard.makeMove`, which is the code that
actually writes and reads it). -/
structure UndoRecord where
  move : Move
  movedPiece : Piece
  capturedPiece : Option Piece
  capturedSquare : Option Coord
  sideToMoveBefore : Colour
  castlingRightsBefore : CastlingRights
  enPassantTargetBefore : Option Coord
  halfmoveClockBefore : Nat
  fullmoveNumberBefore : Nat
  rookFrom : Option Coord
  rookTo : Option Coord
  rookPiece : Option Piece
  promotedTo : Option Piece
deriving DecidableEq, Repr

/-- The board contents: what `this.squares[r][f].piece` holds. -/
abbrev SquaresFn := Nat → Nat → Option Piece

/-- Writing one square of the grid (`square.piece = p`). -/
def setPiece (sq : SquaresFn) (r f : Nat) (p : Option Piece) : SquaresFn :=
  fun r' f' => if r' = r ∧ f' = f then p else sq r' f'

theorem setPiece_same (sq : SquaresFn) (r f : Nat) (p : Option Piece) :
    setPiece sq r f p r f = p := by
  simp [setPiece]

theorem setPiece_other (sq : SquaresFn) (r f : Nat) (p : Option Piece)
    (r' f' : Nat) (h : ¬(r' = r ∧ f' = f)) :
    setPiece sq r f p r' f' = sq r' f' := by
  simp [setPiece, h]

/-- The full engine state (`ChessBoard`'s fields). -/
structure ChessBoard where
  squares : SquaresFn
  history : List UndoRecord
  sideToMove : Colour
  castlingRights : CastlingRights
  enPassantTarget : Option Coord
  halfMoveClock : Nat
  fullMoveNumber : Nat

namespace ChessBoard

/-- Bounds test on candidate coordinates (`ChessBoard.inBounds`), on the
`Int` values the TypeScript arithmetic produces. -/
def inBoundsZ (r f : Int) : Bool :=
  decide (0 ≤ r ∧ r < 8 ∧ 0 ≤ f ∧ f < 8)

/-- Reading a square addressed with possibly-negative candidate coordinates;
out of bounds reads never see a piece (matching every call site, which is
guarded by a bounds check). -/
def pieceAtZ (b : ChessBoard) (r f : Int) : Option Piece :=
  if inBoundsZ r f then b.squares r.toNat f.toNat else none

/-- `ChessBoard.isEmpty`: in bounds and unoccupied. -/
def isEmptyZ (b : ChessBoard) (r f : Int) : Bool :=
  if inBoundsZ r f then (b.squares r.toNat f.toNat).isNone else false

/-- `ChessBoard.isEnemy`: in bounds and occupied by the other colour. -/
def isEnemyZ (b : ChessBoard) (r f : Int) (colour : Colour) : Bool :=
  if inBoundsZ r f then
    match b.squares r.toNat f.toNat with
    | some p => decide (p.colour ≠ colour)
    | none => false
  else false

/-- `ChessBoard.pushIfOk`: the candidate destination is bounds-checked, then
pushed as a quiet move on an empty square or a capture on an enemy square.
The returned list (empty or a singleton) is appended by each caller, which
models `moves.push`. -/
def pushIfOk (b : ChessBoard) (fromRank fromFile : Nat) (toRank toFile : Int)
    (colour : Colour) : List Move :=
  if toRank < 0 ∨ toRank > 7 ∨ toFile < 0 ∨ toFile > 7 then []
  else
    let tr := toRank.toNat
    let tf := toFile.toNat
    match b.squares tr tf with
    | none => [{ fromRank := fromRank, fromFile := fromFile, toRank := tr, toFile := tf }]
    | some target =>
        if target.colour ≠ colour then
          [{ fromRank := fromRank, fromFile := fromFile, toRank := tr, toFile := tf,
             isCapture := true }]
        else []

/-- `ChessBoard.pawnMoves`: forward steps (the double step nested inside the
single-step branch), the two diagonal captures, then en passant. -/
def pawnMoves (b : ChessBoard) (r f : Nat) (piece : Piece) : List Move :=
  let dir : Int := if piece.colour = Colour.white then 1 else -1
  let startRank : Nat := if piece.colour = Colour.white then 1 else 6
  let oneStepR : Int := (r : Int) + dir
  let forwardMoves :=
    if inBoundsZ oneStepR (f : Int) && b.isEmptyZ oneStepR (f : Int) then
      pushIfOk b r f oneStepR (f : Int) piece.colour ++
        (let twoStepR : Int := (r : Int) + 2 * dir
         if r = startRank && b.isEmptyZ twoStepR (f : Int) then
           pushIfOk b r f twoStepR (f : Int) piece.colour
         else [])
    else []
  let captureMoves :=
    (if b.isEnemyZ ((r : Int) + dir) ((f : Int) + (-1)) piece.colour then
       pushIfOk b r f ((r : Int) + dir) ((f : Int) + (-1)) piece.colour
     else []) ++
    (if b.isEnemyZ ((r : Int) + dir) ((f : Int) + 1) piece.colour then
       pushIfOk b r f ((r : Int) + dir) ((f : Int) + 1) piece.colour
     else [])
  let epMoves :=
    match b.enPassantTarget with
    | none => []
    | some t =>
        if (t.rank : Int) = (r : Int) + dir && ((t.file : Int) - (f : Int)).natAbs = 1 then
          match b.pieceAtZ
              (if piece.colour = Colour.white then (t.rank : Int) - 1 else (t.rank : Int) + 1)
              (t.file : Int) with
          | some victim =>
              if victim.type = PieceType.pawn ∧ victim.colour ≠ piece.colour then
                [{ fromRank := r, fromFile := f, toRank := t.rank, toFile := t.file,
                   enPassant := true, isCapture := true }]
              else []
          | none => []
        else []
  forwardMoves ++ captureMoves ++ epMoves

/-- One ray of `ChessBoard.rayMoves`: step outward while in bounds, pushing
empty squares, pushing-and-stopping on an enemy piece, stopping on a friendly
piece.  The fuel (16 at every call) strictly dominates the at most 7 steps a
ray can take inside the 8×8 bounds, so the recursion mirrors the `while`
loop exactly. -/
def rayStep (b : ChessBoard) (r f : Nat) (colour : Colour) (dr df : Int) :
    Nat → Int → Int → List Move
  | 0, _, _ => []
  | fuel + 1, rr, ff =>
      if inBoundsZ rr ff then
        match b.squares rr.toNat ff.toNat with
        | none =>
            { fromRank := r, fromFile := f, toRank := rr.toNat, toFile := ff.toNat : Move } ::
              rayStep b r f colour dr df fuel (rr + dr) (ff + df)
        | some target =>
            if target.colour ≠ colour then
              [{ fromRank := r, fromFile := f, toRank := rr.toNat, toFile := ff.toNat,
                 isCapture := true }]
            else []
      else []

/-- `ChessBoard.rayMoves` for a single direction. -/
def rayMovesDir (b : ChessBoard) (r f : Nat) (piece : Piece) (dr df : Int) : List Move :=
  rayStep b r f piece.colour dr df 16 ((r : Int) + dr) ((f : Int) + df)

/-- `ChessBoard.rookMoves`: the four orthogonal rays in source order. -/
def rookMoves (b : ChessBoard) (r f : Nat) (piece : Piece) : List Move :=
  rayMovesDir b r f piece 1 0 ++ rayMovesDir b r f piece (-1) 0 ++
    rayMovesDir b r f piece 0 1 ++ rayMovesDir b r f piece 0 (-1)

/-- `ChessBoard.knightMoves`: the eight jumps in source order. -/
def knightMoves (b : ChessBoard) (r f : Nat) (piece : Piece) : List Move :=
  pushIfOk b r f ((r : Int) + (-2)) ((f : Int) + (-1)) piece.colour ++
    pushIfOk b r f ((r : Int) + (-2)) ((f : Int) + 1) piece.colour ++
    pushIfOk b r f ((r : Int) + (-1)) ((f : Int) + (-2)) piece.colour ++
    pushIfOk b r f ((r : Int) + (-1)) ((f : Int) + 2) piece.colour ++
    pushIfOk b r f ((r : Int) + 1) ((f : Int) + (-2)) piece.colour ++
    pushIfOk b r f ((r : Int) + 1) ((f : Int) + 2) piece.colour ++
    pushIfOk b r f ((r : Int) + 2) ((f : Int) + (-1)) piece.colour ++
    pushIfOk b r f ((r : Int) + 2) ((f : Int) + 1) piece.colour

/-- `ChessBoard.bishopMoves`: the four diagonal rays in source order. -/
def bishopMoves (b : ChessBoard) (r f : Nat) (piece : Piece) : List Move :=
  rayMovesDir b r f piece 1 1 ++ rayMovesDir b r f piece 1 (-1) ++
    rayMovesDir b r f piece (-1) 1 ++ rayMovesDir b r f piece (-1) (-1)

/-- `ChessBoard.queenMoves`: orthogonal rays then diagonal rays. -/
def queenMoves (b : ChessBoard) (r f : Nat) (piece : Piece) : List Move :=
  rayMovesDir b r f piece 1 0 ++ rayMovesDir b r f piece (-1) 0 ++
    rayMovesDir b r f piece 0 1 ++ rayMovesDir b r f piece 0 (-1) ++
    rayMovesDir b r f piece 1 1 ++ rayMovesDir b r f piece 1 (-1) ++
    rayMovesDir b r f piece (-1) 1 ++ rayMovesDir b r f piece (-1) (-1)

/-- `ChessBoard.kingMoves`: the nested `dr`/`df` loops skipping (0,0), in
loop order. -/
def kingMoves (b : ChessBoard) (r f : Nat) (piece : Piece) : List Move :=
  pushIfOk b r f ((r : Int) + (-1)) ((f : Int) + (-1)) piece.colour ++
    pushIfOk b r f ((r : Int) + (-1)) ((f : Int) + 0) piece.colour ++
    pushIfOk b r f ((r : Int) + (-1)) ((f : Int) + 1) piece.colour ++
    pushIfOk b r f ((r : Int) + 0) ((f : Int) + (-1)) piece.colour ++
    pushIfOk b r f ((r : Int) + 0) ((f : Int) + 1) piece.colour ++
    pushIfOk b r f ((r : Int) + 1) ((f : Int) + (-1)) piece.colour ++
    pushIfOk b r f ((r : Int) + 1) ((f : Int) + 0) piece.colour ++
    pushIfOk b r f ((r : Int) + 1) ((f : Int) + 1) piece.colour

/-- `ChessBoard.getPseudoLegalMoves`: dispatch on the piece occupying the
source square. -/
def getPseudoLegalMoves (b : ChessBoard) (r f : Nat) : List Move :=
  match b.squares r f with
  | none => []
  | some piece =>
      match piece.type with
      | PieceType.pawn => pawnMoves b r f piece
      | PieceType.rook => rookMoves b r f piece
      | PieceType.knight => knightMoves b r f piece
      | PieceType.bishop => bishopMoves b r f piece
      | PieceType.queen => queenMoves b r f piece
      | PieceType.king => kingMoves b r f piece

/-- `ChessBoard.isAttackedByPawn`: the two diagonal squares one rank toward
the attacker's origin. -/
def isAttackedByPawn (b : ChessBoard) (rank file : Nat) (byColour : Colour) : Bool :=
  let pawnRank : Int := if byColour = Colour.white then (rank : Int) - 1 else (rank : Int) + 1
  if pawnRank < 0 ∨ pawnRank > 7 then false
  else
    (decide (1 ≤ file) &&
      (match b.squares pawnRank.toNat (file - 1) with
       | some p => decide (p.colour = byColour ∧ p.type = PieceType.pawn)
       | none => false)) ||
    (decide (file + 1 ≤ 7) &&
      (match b.squares pawnRank.toNat (file + 1) with
       | some p => decide (p.colour = byColour ∧ p.type = PieceType.pawn)
       | none => false))

/-- Test one fixed-offset attacker square for `isAttackedByKnight` and
`isAttackedByKing`. -/
def offsetHasPiece (b : ChessBoard) (rank file : Nat) (dr df : Int)
    (byColour : Colour) (t : PieceType) : Bool :=
  let r := (rank : Int) + dr
  let f := (file : Int) + df
  if r < 0 ∨ r > 7 ∨ f < 0 ∨ f > 7 then false
  else
    match b.squares r.toNat f.toNat with
    | some p => decide (p.colour = byColour ∧ p.type = t)
    | none => false

/-- `ChessBoard.isAttackedByKnight`: the eight L-jump offsets. -/
def isAttackedByKnight (b : ChessBoard) (rank file : Nat) (byColour : Colour) : Bool :=
  [((-2 : Int), (-1 : Int)), (-2, 1), (-1, -2), (-1, 2),
   (1, -2), (1, 2), (2, -1), (2, 1)].any
    (fun d => offsetHasPiece b rank file d.1 d.2 byColour PieceType.knight)

/-- `ChessBoard.isAttackedByKing`: the eight adjacency offsets. -/
def isAttackedByKing (b : ChessBoard) (rank file : Nat) (byColour : Colour) : Bool :=
  [((-1 : Int), (-1 : Int)), (-1, 0), (-1, 1), (0, -1),
   (0, 1), (1, -1), (1, 0), (1, 1)].any
    (fun d => offsetHasPiece b rank file d.1 d.2 byColour PieceType.king)

/-- One ray of `ChessBoard.rayAttacked`: the first occupied square decides
(attack if it holds one of the allowed attacker types of the attacking
colour, block otherwise); fuel 16 dominates the at most 7 in-bounds steps. -/
def rayAttackStep (b : ChessBoard) (byColour : Colour) (attackerTypes : List PieceType)
    (dr df : Int) : Nat → Int → Int → Bool
  | 0, _, _ => false
  | fuel + 1, r, f =>
      if 0 ≤ r ∧ r ≤ 7 ∧ 0 ≤ f ∧ f ≤ 7 then
        match b.squares r.toNat f.toNat with
        | some p => decide (p.colour = byColour ∧ p.type ∈ attackerTypes)
        | none => rayAttackStep b byColour attackerTypes dr df fuel (r + dr) (f + df)
      else false

/-- `ChessBoard.rayAttacked` over a direction list. -/
def rayAttacked (b : ChessBoard) (rank file : Nat) (byColour : Colour)
    (dirs : List (Int × Int)) (attackerTypes : List PieceType) : Bool :=
  dirs.any (fun d =>
    rayAttackStep b byColour attackerTypes d.1 d.2 16
      ((rank : Int) + d.1) ((file : Int) + d.2))

/-- `ChessBoard.isAttackedBySlidingPieces`: rook/queen rays then
bishop/queen rays. -/
def isAttackedBySlidingPieces (b : ChessBoard) (rank file : Nat) (byColour : Colour) : Bool :=
  rayAttacked b rank file byColour [((1 : Int), (0 : Int)), (-1, 0), (0, 1), (0, -1)]
      [PieceType.rook, PieceType.queen] ||
    rayAttacked b rank file byColour [((1 : Int), (1 : Int)), (1, -1), (-1, 1), (-1, -1)]
      [PieceType.bishop, PieceType.queen]

/-- `ChessBoard.isSquareAttacked`: pawn, knight, king, then sliding checks. -/
def isSquareAttacked (b : ChessBoard) (rank file : Nat) (byColour : Colour) : Bool :=
  isAttackedByPawn b rank file byColour || isAttackedByKnight b rank file byColour ||
    isAttackedByKing b rank file byColour || isAttackedBySlidingPieces b rank file byColour

/-- Row-major scan order of `ChessBoard.findKing`'s nested loops (also the
square order of `MoveGenerator.getPseudoLegalMoves`). -/
def boardCoords : List (Nat × Nat) :=
  (List.range 8).flatMap (fun r => (List.range 8).map (fun f => (r, f)))

/-- `ChessBoard.findKing`: first square (row-major) holding the king of the
given colour, or `none`. -/
def findKing (b : ChessBoard) (colour : Colour) : Option Coord :=
  (boardCoords.find? (fun rf =>
      match b.squares rf.1 rf.2 with
      | some p => decide (p.type = PieceType.king ∧ p.colour = colour)
      | none => false)).map (fun rf => { rank := rf.1, file := rf.2 })

/-- `ChessBoard.isKingInCheck`: `false` when the king is absent, otherwise an
attack query on its square by the opposite colour. -/
def isKingInCheck (b : ChessBoard) (colour : Colour) : Bool :=
  match findKing b colour with
  | none => false
  | some kingPos => isSquareAttacked b kingPos.rank kingPos.file (toggleColour colour)

/-- Rank of the en-passant victim in `makeMove` (`(move.toRank ∓ 1) as Rank`
followed by `getSquare`): `none` models the `TypeError` the TypeScript array
access throws when the computed rank is outside 0..7. -/
def epCapRank (c : Colour) (toRank : Nat) : Option Nat :=
  if c = Colour.white then
    if toRank = 0 then none else some (toRank - 1)
  else
    if toRank ≥ 7 then none else some (toRank + 1)

/-- Capture resolution of `makeMove` step (a): en passant validation and
victim removal, or the plain destination occupant.  Returns the captured
piece, the explicit capture square (en passant only), and the grid after the
victim (if en passant) is removed; `none` is the thrown exception. -/
def resolveCapture (sq : SquaresFn) (m : Move) (piece : Piece) :
    Option (Option Piece × Option Coord × SquaresFn) :=
  if m.enPassant then
    if (sq m.toRank m.toFile).isSome then none
    else
      match epCapRank piece.colour m.toRank with
      | none => none
      | some capRank =>
          match sq capRank m.toFile with
          | none => none
          | some victim =>
              if victim.type = PieceType.pawn ∧ victim.colour ≠ piece.colour then
                some (some victim, some { rank := capRank, file := m.toFile },
                  setPiece sq capRank m.toFile none)
              else none
  else some (sq m.toRank m.toFile, none, sq)

/-- The `isPromotion` computation of `makeMove` step (b): the new piece when
the mover is a pawn carrying a promotion choice onto the last rank. -/
def promotionResult (piece : Piece) (m : Move) : Option Piece :=
  match m.promotion with
  | none => none
  | some t =>
      if piece.type = PieceType.pawn ∧
          ((piece.colour = Colour.white ∧ m.toRank = 7) ∨
            (piece.colour = Colour.black ∧ m.toRank = 0)) then
        some { type := t, colour := piece.colour }
      else none

/-- `makeMove` step (c): rook relocation data and the grid after it, when the
move carries a castle tag (the rook is read from the grid after the king was
placed, as in the source). -/
def castleData (sq : SquaresFn) (piece : Piece) (m : Move) :
    Option Coord × Option Coord × Option Piece × SquaresFn :=
  match m.castle with
  | none => (none, none, none, sq)
  | some side =>
      let homeRank : Nat := if piece.colour = Colour.white then 0 else 7
      let rookFrom : Coord := { rank := homeRank, file := if side = CastleSide.K then 7 else 0 }
      let rookTo : Coord := { rank := homeRank, file := if side = CastleSide.K then 5 else 3 }
      let rookPiece := sq rookFrom.rank rookFrom.file
      (some rookFrom, some rookTo, rookPiece,
        setPiece (setPiece sq rookFrom.rank rookFrom.file none) rookTo.rank rookTo.file rookPiece)

/-- Rights update of `makeMove`: a king move clears both rights of its
colour. -/
def updateRightsKing (cr : CastlingRights) (piece : Piece) : CastlingRights :=
  if piece.type = PieceType.king then
    if piece.colour = Colour.white then { cr with whiteK := false, whiteQ := false }
    else { cr with blackK := false, blackQ := false }
  else cr

/-- Rights update of `makeMove`: a rook leaving its home corner clears that
corner's right. -/
def updateRightsRookMove (cr : CastlingRights) (piece : Piece) (m : Move) : CastlingRights :=
  if piece.type = PieceType.rook then
    if piece.colour = Colour.white then
      let cr1 := if m.fromRank = 0 ∧ m.fromFile = 7 then { cr with whiteK := false } else cr
      if m.fromRank = 0 ∧ m.fromFile = 0 then { cr1 with whiteQ := false } else cr1
    else
      let cr1 := if m.fromRank = 7 ∧ m.fromFile = 7 then { cr with blackK := false } else cr
      if m.fromRank = 7 ∧ m.fromFile = 0 then { cr1 with blackQ := false } else cr1
  else cr

/-- Rights update of `makeMove`: a captured rook on its home corner (judged
by the destination square) clears that corner's right. -/
def updateRightsCapture (cr : CastlingRights) (captured : Option Piece) (m : Move) :
    CastlingRights :=
  match captured with
  | none => cr
  | some cp =>
      if cp.type = PieceType.rook then
        if cp.colour = Colour.white then
          let cr1 := if m.toRank = 0 ∧ m.toFile = 7 then { cr with whiteK := false } else cr
          if m.toRank = 0 ∧ m.toFile = 0 then { cr1 with whiteQ := false } else cr1
        else
          let cr1 := if m.toRank = 7 ∧ m.toFile = 7 then { cr with blackK := false } else cr
          if m.toRank = 7 ∧ m.toFile = 0 then { cr1 with blackQ := false } else cr1
      else cr

/-- `makeMove` step (e): the en passant target after the move — set exactly
when a pawn moved two ranks, to the mid rank on the move's source file. -/
def epTargetAfter (piece : Piece) (m : Move) : Option Coord :=
  if piece.type = PieceType.pawn ∧
      ((m.toRank : Int) - (m.fromRank : Int) = 2 ∨ (m.toRank : Int) - (m.fromRank : Int) = -2) then
    some { rank := (m.fromRank + m.toRank) / 2, file := m.fromFile }
  else none

/-- The undo snapshot `makeMove` pushes, given the pre-move state, the moved
piece, the resolved capture and the castling data. -/
def makeMoveUndo (b : ChessBoard) (m : Move) (piece : Piece)
    (captured : Option Piece) (capturedSquare : Option Coord)
    (cd : Option Coord × Option Coord × Option Piece × SquaresFn) : UndoRecord :=
  { move := m, movedPiece := piece,
    capturedPiece := captured, capturedSquare := capturedSquare,
    sideToMoveBefore := b.sideToMove,
    castlingRightsBefore := b.castlingRights,
    enPassantTargetBefore := b.enPassantTarget,
    halfmoveClockBefore := b.halfMoveClock,
    fullmoveNumberBefore := b.fullMoveNumber,
    rookFrom := cd.1, rookTo := cd.2.1, rookPiece := cd.2.2.1,
    promotedTo := promotionResult piece m }

/-- The state `makeMove` leaves behind on success: steps (b)–(f) applied
after a successful capture resolution. -/
def makeMoveResult (b : ChessBoard) (m : Move) (piece : Piece)
    (captured : Option Piece) (capturedSquare : Option Coord) (sq1 : SquaresFn) :
    ChessBoard :=
  let sq2 := setPiece sq1 m.fromRank m.fromFile none
  let placed := (promotionResult piece m).getD piece
  let sq3 := setPiece sq2 m.toRank m.toFile (some placed)
  let cd := castleData sq3 piece m
  { squares := cd.2.2.2,
    history := makeMoveUndo b m piece captured capturedSquare cd :: b.history,
    sideToMove := toggleColour b.sideToMove,
    castlingRights := updateRightsCapture
      (updateRightsRookMove (updateRightsKing b.castlingRights piece) piece m)
      captured m,
    enPassantTarget := epTargetAfter piece m,
    halfMoveClock :=
      if piece.type = PieceType.pawn ∨ captured.isSome then 0
      else b.halfMoveClock + 1,
    fullMoveNumber :=
      if b.sideToMove = Colour.black then b.fullMoveNumber + 1
      else b.fullMoveNumber }

/-- `ChessBoard.makeMove`.  `.error s` is a thrown exception with `s` the
state the mutated board holds at that point: the two source-square checks
throw before any mutation, the en-passant failures throw after the
unconditional `this.enPassantTarget = null`. -/
def makeMove (b : ChessBoard) (m : Move) : Except ChessBoard ChessBoard :=
  match b.squares m.fromRank m.fromFile with
  | none => Except.error b
  | some piece =>
      if piece.colour = b.sideToMove then
        match resolveCapture b.squares m piece with
        | none => Except.error { b with enPassantTarget := none }
        | some (captured, capturedSquare, sq1) =>
            Except.ok (makeMoveResult b m piece captured capturedSquare sq1)
      else Except.error b

/-- `ChessBoard.undoMove`: no-op on empty history, otherwise pop the record
and restore meta state, rook (castling), moved piece and captured piece. -/
def undoMove (b : ChessBoard) : ChessBoard :=
  match b.history with
  | [] => b
  | undo :: rest =>
      let sq1 :=
        match undo.rookFrom, undo.rookTo with
        | some rf, some rt =>
            setPiece (setPiece b.squares rt.rank rt.file none) rf.rank rf.file undo.rookPiece
        | _, _ => b.squares
      let sq2 := setPiece sq1 undo.move.toRank undo.move.toFile none
      let sq3 := setPiece sq2 undo.move.fromRank undo.move.fromFile (some undo.movedPiece)
      let sq4 :=
        match undo.capturedPiece with
        | none => sq3
        | some cp =>
            match undo.capturedSquare with
            | some cs => setPiece sq3 cs.rank cs.file (some cp)
            | none => setPiece sq3 undo.move.toRank undo.move.toFile (some cp)
      { squares := sq4,
        history := rest,
        sideToMove := undo.sideToMoveBefore,
        castlingRights := undo.castlingRightsBefore,
        enPassantTarget := undo.enPassantTargetBefore,
        halfMoveClock := undo.halfmoveClockBefore,
        fullMoveNumber := undo.fullmoveNumberBefore }

end ChessBoard

namespace LegalMoveFilter

/-- The candidate loop of `LegalMoveFilter.getLegalMoves`: apply, test the
mover's king, undo, keep the move when the king is safe.  The first
component is the board state when the call returns or the exception escapes;
the second is `none` when `makeMove` threw (the `try`/`finally` has no
`catch`, so the exception propagates and nothing is undone — `moved` is
still false). -/
def legalMovesLoop (b : ChessBoard) (moverColour : Colour) :
    List Move → ChessBoard × Option (List Move)
  | [] => (b, some [])
  | m :: ms =>
      match ChessBoard.makeMove b m with
      | Except.error eb => (eb, none)
      | Except.ok b1 =>
          let leavesKingInCheck := ChessBoard.isKingInCheck b1 moverColour
          let b2 := ChessBoard.undoMove b1
          match legalMovesLoop b2 moverColour ms with
          | (bf, none) => (bf, none)
          | (bf, some rest) =>
              (bf, some (if leavesKingInCheck then rest else m :: rest))

/-- `LegalMoveFilter.getLegalMoves` (also `ChessBoard.getLegalMoves`, which
just delegates): empty list when the source square is empty or the piece is
not the side to move, otherwise the filtered pseudo-legal moves. -/
def getLegalMoves (b : ChessBoard) (fromRank fromFile : Nat) :
    ChessBoard × Option (List Move) :=
  match b.squares fromRank fromFile with
  | none => (b, some [])
  | some piece =>
      if piece.colour = b.sideToMove then
        legalMovesLoop b piece.colour (ChessBoard.getPseudoLegalMoves b fromRank fromFile)
      else (b, some [])

end LegalMoveFilter

namespace MoveGenerator

/-- `MoveGenerator.makeMove` (the move-record constructor, not the executor):
marks `isCapture` when the destination is occupied. -/
def mkMove (b : ChessBoard) (fromRank fromFile toRank toFile : Nat) : Move :=
  if (b.squares toRank toFile).isSome then
    { fromRank := fromRank, fromFile := fromFile, toRank := toRank, toFile := toFile,
      isCapture := true }
  else
    { fromRank := fromRank, fromFile := fromFile, toRank := toRank, toFile := toFile }

/-- `MoveGenerator.isOnBoard`. -/
def isOnBoard (rank file : Int) : Bool :=
  decide (0 ≤ rank ∧ rank ≤ 7 ∧ 0 ≤ file ∧ file ≤ 7)

/-- One fixed-offset destination shared by the knight and king adders:
on-board and not occupied by a friendly piece. -/
def offsetMove (b : ChessBoard) (fromRank fromFile : Nat) (piece : Piece)
    (df dr : Int) : List Move :=
  let toFile := (fromFile : Int) + df
  let toRank := (fromRank : Int) + dr
  if isOnBoard toRank toFile then
    match b.squares toRank.toNat toFile.toNat with
    | some p => if p.colour = piece.colour then [] else
        [mkMove b fromRank fromFile toRank.toNat toFile.toNat]
    | none => [mkMove b fromRank fromFile toRank.toNat toFile.toNat]
  else []

/-- `MoveGenerator.addPawnMoves`: one forward step and the two diagonal
captures only (no double step, promotion, or en passant here). -/
def addPawnMoves (b : ChessBoard) (fromRank fromFile : Nat) (piece : Piece) : List Move :=
  let dir : Int := if piece.colour = Colour.white then 1 else -1
  let oneStepRank := (fromRank : Int) + dir
  (if isOnBoard oneStepRank (fromFile : Int) then
     if (b.squares oneStepRank.toNat fromFile).isNone then
       [mkMove b fromRank fromFile oneStepRank.toNat fromFile]
     else []
   else []) ++
  ([(-1 : Int), 1].flatMap (fun df =>
    let capFile := (fromFile : Int) + df
    let capRank := (fromRank : Int) + dir
    if isOnBoard capRank capFile then
      match b.squares capRank.toNat capFile.toNat with
      | some p =>
          if p.colour ≠ piece.colour then
            [mkMove b fromRank fromFile capRank.toNat capFile.toNat]
          else []
      | none => []
    else []))

/-- One ray of `MoveGenerator.addSlidingMoves` (fuel 16 dominates the at most
7 in-bounds steps): stop before a friendly piece, include and stop at an
enemy piece, include empty squares. -/
def slideStep (b : ChessBoard) (fromRank fromFile : Nat) (piece : Piece)
    (df dr : Int) : Nat → Int → Int → List Move
  | 0, _, _ => []
  | fuel + 1, rank, file =>
      if isOnBoard rank file then
        match b.squares rank.toNat file.toNat with
        | some p =>
            if p.colour = piece.colour then []
            else [mkMove b fromRank fromFile rank.toNat file.toNat]
        | none =>
            mkMove b fromRank fromFile rank.toNat file.toNat ::
              slideStep b fromRank fromFile piece df dr fuel (rank + dr) (file + df)
      else []

/-- `MoveGenerator.addSlidingMoves` over a `[df, dr]` direction list. -/
def addSlidingMoves (b : ChessBoard) (fromRank fromFile : Nat) (piece : Piece)
    (directions : List (Int × Int)) : List Move :=
  directions.flatMap (fun d =>
    slideStep b fromRank fromFile piece d.1 d.2 16
      ((fromRank : Int) + d.2) ((fromFile : Int) + d.1))

/-- `ROOK_DIRS` (`[df, dr]` pairs). -/
def ROOK_DIRS : List (Int × Int) := [(1, 0), (-1, 0), (0, 1), (0, -1)]

/-- `BISHOP_DIRS` (`[df, dr]` pairs). -/
def BISHOP_DIRS : List (Int × Int) := [(1, 1), (1, -1), (-1, 1), (-1, -1)]

/-- `QUEEN_DIRS = [...ROOK_DIRS, ...BISHOP_DIRS]`. -/
def QUEEN_DIRS : List (Int × Int) := ROOK_DIRS ++ BISHOP_DIRS

/-- `MoveGenerator.addRookMoves`. -/
def addRookMoves (b : ChessBoard) (rank file : Nat) (piece : Piece) : List Move :=
  addSlidingMoves b rank file piece ROOK_DIRS

/-- `MoveGenerator.addKnightMoves`: the eight `[df, dr]` jumps in source
order. -/
def addKnightMoves (b : ChessBoard) (fromRank fromFile : Nat) (piece : Piece) : List Move :=
  [((1 : Int), (2 : Int)), (2, 1), (2, -1), (1, -2),
   (-1, -2), (-2, -1), (-2, 1), (-1, 2)].flatMap
    (fun d => offsetMove b fromRank fromFile piece d.1 d.2)

/-- `MoveGenerator.addBishopMoves`. -/
def addBishopMoves (b : ChessBoard) (rank file : Nat) (piece : Piece) : List Move :=
  addSlidingMoves b rank file piece BISHOP_DIRS

/-- `MoveGenerator.addQueenMoves`. -/
def addQueenMoves (b : ChessBoard) (rank file : Nat) (piece : Piece) : List Move :=
  addSlidingMoves b rank file piece QUEEN_DIRS

/-- `MoveGenerator.addKingMoves`: the eight `[df, dr]` adjacencies in source
order — no castling is generated. -/
def addKingMoves (b : ChessBoard) (rank file : Nat) (piece : Piece) : List Move :=
  [((-1 : Int), (-1 : Int)), (0, -1), (1, -1), (-1, 0),
   (1, 0), (-1, 1), (0, 1), (1, 1)].flatMap
    (fun d => offsetMove b rank file piece d.1 d.2)

/-- `MoveGenerator.getPseudoLegalMoves`: row-major scan of the side to
move's pieces, dispatching per piece type. -/
def getPseudoLegalMoves (b : ChessBoard) : List Move :=
  ChessBoard.boardCoords.flatMap (fun rf =>
    match b.squares rf.1 rf.2 with
    | none => []
    | some piece =>
        if piece.colour = b.sideToMove then
          match piece.type with
          | PieceType.pawn => addPawnMoves b rf.1 rf.2 piece
          | PieceType.rook => addRookMoves b rf.1 rf.2 piece
          | PieceType.knight => addKnightMoves b rf.1 rf.2 piece
          | PieceType.bishop => addBishopMoves b rf.1 rf.2 piece
          | PieceType.queen => addQueenMoves b rf.1 rf.2 piece
          | PieceType.king => addKingMoves b rf.1 rf.2 piece
        else [])

end MoveGenerator

namespace ChessBoard

/-- The back-rank piece order of `setupInitialPosition`. -/
def backRank : List PieceType :=
  [PieceType.rook, PieceType.knight, PieceType.bishop, PieceType.queen,
   PieceType.king, PieceType.bishop, PieceType.knight, PieceType.rook]

/-- `setUpPawns` over the empty grid: white pawns on rank 1, black pawns on
rank 6, one file at a time. -/
def pawnsSetup (sq : SquaresFn) : SquaresFn :=
  (List.range 8).foldl
    (fun s f =>
      setPiece (setPiece s 1 f (some { type := PieceType.pawn, colour := Colour.white }))
        6 f (some { type := PieceType.pawn, colour := Colour.black }))
    sq

/-- `setUpBackRanks`: ranks 0 and 7 from the `backRank` layout. -/
def backRanksSetup (sq : SquaresFn) : SquaresFn :=
  (List.range 8).foldl
    (fun s f =>
      setPiece
        (setPiece s 0 f (some { type := backRank.getD f PieceType.rook, colour := Colour.white }))
        7 f (some { type := backRank.getD f PieceType.rook, colour := Colour.black }))
    sq

/-- The grid after the `ChessBoard` constructor ran `createEmptyBoard` and
`setupInitialPosition`. -/
def initialSquares : SquaresFn :=
  backRanksSetup (pawnsSetup (fun _ _ => none))

/-- The state the `ChessBoard` constructor builds: standard initial position,
white to move, all rights set, no en passant target, clocks 0 and 1, empty
history. -/
def initialBoard : ChessBoard :=
  { squares := initialSquares,
    history := [],
    sideToMove := Colour.white,
    castlingRights := { whiteK := true, whiteQ := true, blackK := true, blackQ := true },
    enPassantTarget := none,
    halfMoveClock := 0,
    fullMoveNumber := 1 }

/-- Total legal-move count for the side to move, summed over all 64 source
squares through the legal-move query (`getLegalMoves` per square). -/
def totalLegalMoveCount (b : ChessBoard) : Nat :=
  (boardCoords.map (fun rf =>
    ((LegalMoveFilter.getLegalMoves b rf.1 rf.2).2.getD []).length)).sum

end ChessBoard


/-! ### Basic lemmas about the embedding -/

attribute [ext] ChessBoard

namespace ChessBoard

theorem pushIfOk_shape {b : ChessBoard} {fromRank fromFile : Nat} {toRank toFile : Int}
    {colour : Colour} {m : Move} (hm : m ∈ pushIfOk b fromRank fromFile toRank toFile colour) :
    m.castle = none ∧ m.promotion = none ∧ m.enPassant = false := by
  unfold pushIfOk at hm
  split at hm
  · simp at hm
  · dsimp only at hm
    split at hm
    · simp at hm
      subst hm
      exact ⟨rfl, rfl, rfl⟩
    · split at hm
      · simp at hm
        subst hm
        exact ⟨rfl, rfl, rfl⟩
      · simp at hm

theorem rayStep_shape {b : ChessBoard} {r f : Nat} {colour : Colour} {dr df : Int} :
    ∀ {fuel : Nat} {rr ff : Int} {m : Move}, m ∈ rayStep b r f colour dr df fuel rr ff →
      m.castle = none ∧ m.promotion = none ∧ m.enPassant = false := by
  intro fuel
  induction fuel with
  | zero => intro rr ff m hm; simp [rayStep] at hm
  | succ n ih =>
      intro rr ff m hm
      unfold rayStep at hm
      split at hm
      · split at hm
        · rcases List.mem_cons.1 hm with h | h
          · subst h; exact ⟨rfl, rfl, rfl⟩
          · exact ih h
        · split at hm
          · simp at hm; subst hm; exact ⟨rfl, rfl, rfl⟩
          · simp at hm
      · simp at hm

theorem rayMovesDir_shape {b : ChessBoard} {r f : Nat} {piece : Piece} {dr df : Int} {m : Move}
    (hm : m ∈ rayMovesDir b r f piece dr df) :
    m.castle = none ∧ m.promotion = none ∧ m.enPassant = false :=
  rayStep_shape hm

theorem mem_ite_nil {c : Prop} [Decidable c] {l : List Move} {m : Move}
    (h : m ∈ if c then l else []) : m ∈ l := by
  split at h
  · exact h
  · simp at h

theorem pawnMoves_shape {b : ChessBoard} {r f : Nat} {piece : Piece} {m : Move}
    (hm : m ∈ pawnMoves b r f piece) : m.castle = none ∧ m.promotion = none := by
  unfold pawnMoves at hm
  rcases List.mem_append.1 hm with h1 | hep
  · rcases List.mem_append.1 h1 with hfwd | hcap
    · rcases List.mem_append.1 (mem_ite_nil hfwd) with h | h
      · exact ⟨(pushIfOk_shape h).1, (pushIfOk_shape h).2.1⟩
      · exact ⟨(pushIfOk_shape (mem_ite_nil h)).1, (pushIfOk_shape (mem_ite_nil h)).2.1⟩
    · rcases List.mem_append.1 hcap with h | h
      · exact ⟨(pushIfOk_shape (mem_ite_nil h)).1, (pushIfOk_shape (mem_ite_nil h)).2.1⟩
      · exact ⟨(pushIfOk_shape (mem_ite_nil h)).1, (pushIfOk_shape (mem_ite_nil h)).2.1⟩
  · repeat' split at hep
    all_goals
      first
        | (obtain rfl := List.mem_singleton.1 hep; exact ⟨rfl, rfl⟩)
        | simp at hep

theorem knightMoves_shape {b : ChessBoard} {r f : Nat} {piece : Piece} {m : Move}
    (hm : m ∈ knightMoves b r f piece) : m.castle = none ∧ m.promotion = none := by
  unfold knightMoves at hm
  simp only [List.mem_append] at hm
  rcases hm with ((((((h | h) | h) | h) | h) | h) | h) | h <;>
    exact ⟨(pushIfOk_shape h).1, (pushIfOk_shape h).2.1⟩

theorem kingMoves_shape {b : ChessBoard} {r f : Nat} {piece : Piece} {m : Move}
    (hm : m ∈ kingMoves b r f piece) : m.castle = none ∧ m.promotion = none := by
  unfold kingMoves at hm
  simp only [List.mem_append] at hm
  rcases hm with ((((((h | h) | h) | h) | h) | h) | h) | h <;>
    exact ⟨(pushIfOk_shape h).1, (pushIfOk_shape h).2.1⟩

theorem rookMoves_shape {b : ChessBoard} {r f : Nat} {piece : Piece} {m : Move}
    (hm : m ∈ rookMoves b r f piece) : m.castle = none ∧ m.promotion = none := by
  unfold rookMoves at hm
  simp only [List.mem_append] at hm
  rcases hm with ((h | h) | h) | h <;>
    exact ⟨(rayMovesDir_shape h).1, (rayMovesDir_shape h).2.1⟩

theorem bishopMoves_shape {b : ChessBoard} {r f : Nat} {piece : Piece} {m : Move}
    (hm : m ∈ bishopMoves b r f piece) : m.castle = none ∧ m.promotion = none := by
  unfold bishopMoves at hm
  simp only [List.mem_append] at hm
  rcases hm with ((h | h) | h) | h <;>
    exact ⟨(rayMovesDir_shape h).1, (rayMovesDir_shape h).2.1⟩

theorem queenMoves_shape {b : ChessBoard} {r f : Nat} {piece : Piece} {m : Move}
    (hm : m ∈ queenMoves b r f piece) : m.castle = none ∧ m.promotion = none := by
  unfold queenMoves at hm
  simp only [List.mem_append] at hm
  rcases hm with ((((((h | h) | h) | h) | h) | h) | h) | h <;>
    exact ⟨(rayMovesDir_shape h).1, (rayMovesDir_shape h).2.1⟩

/-- Every move the per-square pseudo-legal generator emits has no castle tag
and no promotion tag. -/
theorem getPseudoLegalMoves_shape {b : ChessBoard} {r f : Nat} {m : Move}
    (hm : m ∈ getPseudoLegalMoves b r f) : m.castle = none ∧ m.promotion = none := by
  unfold getPseudoLegalMoves at hm
  split at hm
  · simp at hm
  · split at hm
    · exact pawnMoves_shape hm
    · exact rookMoves_shape hm
    · exact knightMoves_shape hm
    · exact bishopMoves_shape hm
    · exact queenMoves_shape hm
    · exact kingMoves_shape hm

end ChessBoard

namespace MoveGenerator

theorem mkMove_shape (b : ChessBoard) (fromRank fromFile toRank toFile : Nat) :
    (mkMove b fromRank fromFile toRank toFile).castle = none ∧
      (mkMove b fromRank fromFile toRank toFile).promotion = none := by
  unfold mkMove
  split <;> exact ⟨rfl, rfl⟩

theorem offsetMove_shape {b : ChessBoard} {fromRank fromFile : Nat} {piece : Piece}
    {df dr : Int} {m : Move} (hm : m ∈ offsetMove b fromRank fromFile piece df dr) :
    m.castle = none ∧ m.promotion = none := by
  unfold offsetMove at hm
  dsimp only at hm
  repeat' split at hm
  all_goals
    first
      | (obtain rfl := List.mem_singleton.1 hm; exact mkMove_shape ..)
      | simp at hm

theorem slideStep_shape {b : ChessBoard} {fromRank fromFile : Nat} {piece : Piece}
    {df dr : Int} :
    ∀ {fuel : Nat} {rank file : Int} {m : Move},
      m ∈ slideStep b fromRank fromFile piece df dr fuel rank file →
        m.castle = none ∧ m.promotion = none := by
  intro fuel
  induction fuel with
  | zero => intro rank file m hm; simp [slideStep] at hm
  | succ n ih =>
      intro rank file m hm
      unfold slideStep at hm
      split at hm
      · split at hm
        · split at hm
          · simp at hm
          · obtain rfl := List.mem_singleton.1 hm
            exact mkMove_shape ..
        · rcases List.mem_cons.1 hm with h | h
          · subst h; exact mkMove_shape ..
          · exact ih h
      · simp at hm

theorem addSlidingMoves_shape {b : ChessBoard} {fromRank fromFile : Nat} {piece : Piece}
    {directions : List (Int × Int)} {m : Move}
    (hm : m ∈ addSlidingMoves b fromRank fromFile piece directions) :
    m.castle = none ∧ m.promotion = none := by
  unfold addSlidingMoves at hm
  obtain ⟨d, -, h⟩ := List.mem_flatMap.1 hm
  exact slideStep_shape h

theorem addPawnMoves_shape {b : ChessBoard} {fromRank fromFile : Nat} {piece : Piece}
    {m : Move} (hm : m ∈ addPawnMoves b fromRank fromFile piece) :
    m.castle = none ∧ m.promotion = none := by
  unfold addPawnMoves at hm
  rcases List.mem_append.1 hm with h | h
  · try dsimp only at h
    repeat' split at h
    all_goals
      first
        | (obtain rfl := List.mem_singleton.1 h; exact mkMove_shape ..)
        | simp at h
  · obtain ⟨d, -, h⟩ := List.mem_flatMap.1 h
    dsimp only at h
    repeat' split at h
    all_goals
      first
        | (obtain rfl := List.mem_singleton.1 h; exact mkMove_shape ..)
        | simp at h

theorem addKnightMoves_shape {b : ChessBoard} {fromRank fromFile : Nat} {piece : Piece}
    {m : Move} (hm : m ∈ addKnightMoves b fromRank fromFile piece) :
    m.castle = none ∧ m.promotion = none := by
  unfold addKnightMoves at hm
  obtain ⟨d, -, h⟩ := List.mem_flatMap.1 hm
  exact offsetMove_shape h

theorem addKingMoves_shape {b : ChessBoard} {rank file : Nat} {piece : Piece}
    {m : Move} (hm : m ∈ addKingMoves b rank file piece) :
    m.castle = none ∧ m.promotion = none := by
  unfold addKingMoves at hm
  obtain ⟨d, -, h⟩ := List.mem_flatMap.1 hm
  exact offsetMove_shape h

/-- Every move the whole-side generator emits has no castle tag and no
promotion tag. -/
theorem wholeSideMoves_shape {b : ChessBoard} {m : Move}
    (hm : m ∈ getPseudoLegalMoves b) : m.castle = none ∧ m.promotion = none := by
  unfold getPseudoLegalMoves at hm
  obtain ⟨rf, -, h⟩ := List.mem_flatMap.1 hm
  split at h
  · simp at h
  · split at h
    · split at h
      · exact addPawnMoves_shape h
      · exact addSlidingMoves_shape h
      · exact addKnightMoves_shape h
      · exact addSlidingMoves_shape h
      · exact addSlidingMoves_shape h
      · exact addKingMoves_shape h
    · simp at h

end MoveGenerator

namespace ChessBoard

theorem castleData_none {sq : SquaresFn} {piece : Piece} {m : Move}
    (h : m.castle = none) : castleData sq piece m = (none, none, none, sq) := by
  unfold castleData
  rw [h]

theorem epCapRank_ne {c : Colour} {toRank capRank : Nat}
    (h : epCapRank c toRank = some capRank) : capRank ≠ toRank := by
  unfold epCapRank at h
  split at h <;> split at h <;> simp_all <;> omega

/-- What a successful capture resolution tells us: either a plain move
(whatever occupies the destination is the capture, grid untouched) or a
validated en-passant capture (empty destination, a pawn victim of the other
colour one rank behind it, removed from the grid). -/
theorem resolveCapture_inv {sq : SquaresFn} {m : Move} {piece : Piece}
    {captured : Option Piece} {cs : Option Coord} {sq1 : SquaresFn}
    (h : resolveCapture sq m piece = some (captured, cs, sq1)) :
    (m.enPassant = false ∧ captured = sq m.toRank m.toFile ∧ cs = none ∧ sq1 = sq) ∨
    (m.enPassant = true ∧ ∃ capRank victim,
      sq m.toRank m.toFile = none ∧
      epCapRank piece.colour m.toRank = some capRank ∧
      sq capRank m.toFile = some victim ∧
      victim.type = PieceType.pawn ∧ victim.colour ≠ piece.colour ∧
      captured = some victim ∧ cs = some { rank := capRank, file := m.toFile } ∧
      sq1 = setPiece sq capRank m.toFile none) := by
  unfold resolveCapture at h
  split at h
  · right
    split at h
    · simp at h
    · split at h
      · simp at h
      · split at h
        · simp at h
        · split at h
          · simp only [Option.some.injEq, Prod.mk.injEq] at h
            obtain ⟨h1, h2, h3⟩ := h
            refine ⟨by assumption, _, _, ?_, by assumption, by assumption, ?_, ?_, ?_, ?_, ?_⟩
            · rcases hx : sq m.toRank m.toFile with - | x
              · rfl
              · simp_all
            · simp_all
            · simp_all
            · exact h1.symm
            · exact h2.symm
            · exact h3.symm
          · simp at h
  · left
    simp only [Option.some.injEq, Prod.mk.injEq] at h
    obtain ⟨h1, h2, h3⟩ := h
    exact ⟨by simp_all, h1.symm, h2.symm, h3.symm⟩

/-- Success inversion for `makeMove`. -/
theorem makeMove_ok_inv {b : ChessBoard} {m : Move} {b' : ChessBoard}
    (h : makeMove b m = Except.ok b') :
    ∃ piece captured capturedSquare sq1,
      b.squares m.fromRank m.fromFile = some piece ∧
      piece.colour = b.sideToMove ∧
      resolveCapture b.squares m piece = some (captured, capturedSquare, sq1) ∧
      b' = makeMoveResult b m piece captured capturedSquare sq1 := by
  unfold makeMove at h
  split at h
  · simp at h
  · split at h
    · split at h
      · simp at h
      · injection h with h
        exact ⟨_, _, _, _, by assumption, by assumption, by assumption, h.symm⟩
    · simp at h

/-- Forward direction: the three success conditions give the explicit
result. -/
theorem makeMove_eq_ok {b : ChessBoard} {m : Move} {piece : Piece}
    {captured : Option Piece} {capturedSquare : Option Coord} {sq1 : SquaresFn}
    (hpiece : b.squares m.fromRank m.fromFile = some piece)
    (hcol : piece.colour = b.sideToMove)
    (hres : resolveCapture b.squares m piece = some (captured, capturedSquare, sq1)) :
    makeMove b m = Except.ok (makeMoveResult b m piece captured capturedSquare sq1) := by
  unfold makeMove
  simp only [hpiece, hres, if_pos hcol]

end ChessBoard

namespace ChessBoard

/-- Reversal: a successful `makeMove` of a move with no castle tag (which is
every generated move) is exactly undone by `undoMove` — grid, side to move,
castling rights, en passant target, both clocks and the history stack. -/
theorem undoMove_makeMove {b : ChessBoard} {m : Move} {b' : ChessBoard}
    (hcastle : m.castle = none) (h : makeMove b m = Except.ok b') :
    undoMove b' = b := by
  obtain ⟨piece, captured, capturedSquare, sq1, hpiece, hcol, hres, rfl⟩ := makeMove_ok_inv h
  rcases resolveCapture_inv hres with ⟨hep, rfl, rfl, rfl⟩ |
    ⟨hep, capRank, victim, hto, hcr, hvic, hvt, hvc, rfl, rfl, rfl⟩
  · -- plain move: the capture (if any) sits on the destination square
    unfold makeMoveResult makeMoveUndo undoMove
    dsimp only
    rw [castleData_none hcastle]
    dsimp only
    rcases hcap : b.squares m.toRank m.toFile with - | cp
    · refine ChessBoard.ext ?_ rfl rfl rfl rfl rfl rfl
      funext r f
      by_cases h1 : r = m.fromRank ∧ f = m.fromFile
      · obtain ⟨rfl, rfl⟩ := h1
        simp [setPiece, hpiece]
      · by_cases h2 : r = m.toRank ∧ f = m.toFile
        · obtain ⟨rfl, rfl⟩ := h2
          simp [setPiece, h1, hcap]
        · simp [setPiece, h1, h2]
    · refine ChessBoard.ext ?_ rfl rfl rfl rfl rfl rfl
      funext r f
      by_cases h2 : r = m.toRank ∧ f = m.toFile
      · obtain ⟨rfl, rfl⟩ := h2
        simp [setPiece, hcap]
      · by_cases h1 : r = m.fromRank ∧ f = m.fromFile
        · obtain ⟨rfl, rfl⟩ := h1
          simp [setPiece, h2, hpiece]
        · simp [setPiece, h1, h2]
  · -- en passant: the victim sits behind the (empty) destination square
    have hcapto : capRank ≠ m.toRank := epCapRank_ne hcr
    unfold makeMoveResult makeMoveUndo undoMove
    dsimp only
    rw [castleData_none hcastle]
    dsimp only
    refine ChessBoard.ext ?_ rfl rfl rfl rfl rfl rfl
    funext r f
    by_cases hc : r = capRank ∧ f = m.toFile
    · obtain ⟨rfl, rfl⟩ := hc
      simp [setPiece, hvic]
    · by_cases h1 : r = m.fromRank ∧ f = m.fromFile
      · obtain ⟨rfl, rfl⟩ := h1
        simp [setPiece, hc, hpiece]
      · by_cases h2 : r = m.toRank ∧ f = m.toFile
        · obtain ⟨rfl, rfl⟩ := h2
          simp [setPiece, hc, h1, hto]
          omega
        · simp [setPiece, hc, h1, h2]

end ChessBoard

namespace LegalMoveFilter

/-- Any move returned by the filter loop was successfully applied to the
entry board and its application is undone exactly by `undoMove` (the loop
re-enters every iteration on the same board because the previous speculative
move was reverted). -/
theorem legalMovesLoop_mem {moverColour : Colour} :
    ∀ (ms : List Move) (b : ChessBoard), (∀ m ∈ ms, m.castle = none) →
      ∀ {res : List Move}, (legalMovesLoop b moverColour ms).2 = some res →
        ∀ {m : Move}, m ∈ res →
          ∃ b', ChessBoard.makeMove b m = Except.ok b' ∧ ChessBoard.undoMove b' = b := by
  intro ms
  induction ms with
  | nil =>
      intro b hcn res hres m hm
      unfold legalMovesLoop at hres
      simp only [Option.some.injEq] at hres
      subst hres
      simp at hm
  | cons m0 tl ih =>
      intro b hcn res hres m hm
      unfold legalMovesLoop at hres
      rcases hmk : ChessBoard.makeMove b m0 with eb | b1
      · rw [hmk] at hres
        simp at hres
      · rw [hmk] at hres
        dsimp only at hres
        have hundo : ChessBoard.undoMove b1 = b :=
          ChessBoard.undoMove_makeMove (hcn m0 (by simp)) hmk
        rw [hundo] at hres
        rcases hloop : legalMovesLoop b moverColour tl with ⟨bf, ores⟩
        rw [hloop] at hres
        rcases ores with - | rest
        · simp at hres
        · dsimp only at hres
          injection hres with hres
          subst hres
          have htl : (legalMovesLoop b moverColour tl).2 = some rest := by
            rw [hloop]
          have hcn' : ∀ x ∈ tl, x.castle = none := fun x hx => hcn x (by simp [hx])
          split at hm
          · exact ih b hcn' htl hm
          · rcases List.mem_cons.1 hm with rfl | hm'
            · exact ⟨b1, hmk, hundo⟩
            · exact ih b hcn' htl hm'

end LegalMoveFilter

/-- Claim C1: for every board and every move in the legal-move list for a
square, `makeMove` succeeds and the immediately following `undoMove` restores
the full pre-move state — grid, side to move, castling rights, en passant
target, both clocks and the (LIFO) undo history. -/
theorem C1_make_undo_roundtrip (b : ChessBoard) (fromRank fromFile : Nat)
    (ms : List Move) (hms : (LegalMoveFilter.getLegalMoves b fromRank fromFile).2 = some ms)
    (m : Move) (hm : m ∈ ms) :
    ∃ b', ChessBoard.makeMove b m = Except.ok b' ∧ ChessBoard.undoMove b' = b := by
  unfold LegalMoveFilter.getLegalMoves at hms
  split at hms
  · simp only [Option.some.injEq] at hms
    subst hms
    simp at hm
  · split at hms
    · exact LegalMoveFilter.legalMovesLoop_mem _ b
        (fun x hx => (ChessBoard.getPseudoLegalMoves_shape hx).1) hms hm
    · simp only [Option.some.injEq] at hms
      subst hms
      simp at hm

/-- Witness for C1 at a concrete input: the single pawn step e2–e3 from the
initial position. -/
theorem C1_make_undo_roundtrip_witness :
    (LegalMoveFilter.getLegalMoves ChessBoard.initialBoard 1 4).2 =
        some [{ fromRank := 1, fromFile := 4, toRank := 2, toFile := 4 },
              { fromRank := 1, fromFile := 4, toRank := 3, toFile := 4 }] ∧
      ({ fromRank := 1, fromFile := 4, toRank := 2, toFile := 4 } : Move) ∈
        [({ fromRank := 1, fromFile := 4, toRank := 2, toFile := 4 } : Move),
         { fromRank := 1, fromFile := 4, toRank := 3, toFile := 4 }] ∧
      ∃ b', ChessBoard.makeMove ChessBoard.initialBoard
              { fromRank := 1, fromFile := 4, toRank := 2, toFile := 4 } = Except.ok b' ∧
            ChessBoard.undoMove b' = ChessBoard.initialBoard :=
  ⟨by decide, by decide,
    C1_make_undo_roundtrip ChessBoard.initialBoard 1 4
      [{ fromRank := 1, fromFile := 4, toRank := 2, toFile := 4 },
       { fromRank := 1, fromFile := 4, toRank := 3, toFile := 4 }] (by decide)
      { fromRank := 1, fromFile := 4, toRank := 2, toFile := 4 } (by decide)⟩

/-- Claim C6: in the standard initial position white has exactly 20 legal
moves, summed over all 64 source squares through the legal-move query. -/
theorem C6_initial_position_twenty_moves :
    ChessBoard.totalLegalMoveCount ChessBoard.initialBoard = 20 := by
  decide

namespace ChessBoard

theorem mem_boardCoords {rf : Nat × Nat} (h : rf ∈ boardCoords) :
    rf.1 < 8 ∧ rf.2 < 8 := by
  unfold boardCoords at h
  obtain ⟨r, hr, h⟩ := List.mem_flatMap.1 h
  obtain ⟨f, hf, rfl⟩ := List.mem_map.1 h
  exact ⟨List.mem_range.1 hr, List.mem_range.1 hf⟩

end ChessBoard

/-- Claim C10: `isKingInCheck` is total and answers `false` whenever no king
of the queried colour stands anywhere on the board (`findKing` comes back
empty and the check query short-circuits instead of failing). -/
theorem C10_no_king_means_no_check (b : ChessBoard) (colour : Colour)
    (h : ∀ r f, r < 8 → f < 8 →
      b.squares r f ≠ some { type := PieceType.king, colour := colour }) :
    ChessBoard.isKingInCheck b colour = false := by
  unfold ChessBoard.isKingInCheck
  have hfind : ChessBoard.findKing b colour = none := by
    unfold ChessBoard.findKing
    have : ChessBoard.boardCoords.find? (fun rf =>
        match b.squares rf.1 rf.2 with
        | some p => decide (p.type = PieceType.king ∧ p.colour = colour)
        | none => false) = none := by
      rw [List.find?_eq_none]
      intro rf hrf
      obtain ⟨h1, h2⟩ := ChessBoard.mem_boardCoords hrf
      rcases hsq : b.squares rf.1 rf.2 with - | p
      · simp
      · simp only [decide_eq_true_eq]
        rintro ⟨ht, hc⟩
        refine h rf.1 rf.2 h1 h2 ?_
        rw [hsq]
        cases p
        simp_all
    rw [this]
    rfl
  rw [hfind]

/-- A bare board with no pieces at all, for exercising the no-king case. -/
def emptyTestBoard : ChessBoard :=
  { squares := fun _ _ => none,
    history := [],
    sideToMove := Colour.white,
    castlingRights := { whiteK := true, whiteQ := true, blackK := true, blackQ := true },
    enPassantTarget := none,
    halfMoveClock := 0,
    fullMoveNumber := 1 }

/-- Witness for C10: a board with no pieces has no white king and the check
query answers `false`. -/
theorem C10_no_king_means_no_check_witness :
    (∀ r f, r < 8 → f < 8 →
        emptyTestBoard.squares r f ≠ some { type := PieceType.king, colour := Colour.white }) ∧
      ChessBoard.isKingInCheck emptyTestBoard Colour.white = false :=
  ⟨fun r f _ _ => by simp [emptyTestBoard],
    C10_no_king_means_no_check emptyTestBoard Colour.white (fun r f _ _ => by simp [emptyTestBoard])⟩

/-- Claim C9: `makeMove` on any move that is not flagged en passant and whose
source square holds a piece of the side to move succeeds — no geometry check,
no friendly-fire check — and whatever occupied the destination (even a
friendly piece) is recorded in the pushed undo record as the capture. -/
theorem C9_non_ep_makeMove_succeeds (b : ChessBoard) (m : Move) (piece : Piece)
    (hfr : m.fromRank < 8) (hff : m.fromFile < 8) (htr : m.toRank < 8) (htf : m.toFile < 8)
    (hep : m.enPassant = false)
    (hp : b.squares m.fromRank m.fromFile = some piece)
    (hc : piece.colour = b.sideToMove) :
    ∃ b' u, ChessBoard.makeMove b m = Except.ok b' ∧
      b'.history = u :: b.history ∧ u.capturedPiece = b.squares m.toRank m.toFile := by
  have hres : ChessBoard.resolveCapture b.squares m piece =
      some (b.squares m.toRank m.toFile, none, b.squares) := by
    simp [ChessBoard.resolveCapture, hep]
  exact ⟨_, _, ChessBoard.makeMove_eq_ok hp hc hres, rfl, rfl⟩

/-- Witness for C9: from the initial position, the geometrically impossible
"queen takes own bishop" move d1–f1 is accepted by `makeMove` and the white
bishop is recorded as captured. -/
theorem C9_non_ep_makeMove_succeeds_witness :
    ((1 : Nat) < 8 ∧ (3 : Nat) < 8 ∧ (0 : Nat) < 8 ∧ (5 : Nat) < 8) ∧
      ({ fromRank := 0, fromFile := 3, toRank := 0, toFile := 5 } : Move).enPassant = false ∧
      ChessBoard.initialBoard.squares 0 3 =
        some { type := PieceType.queen, colour := Colour.white } ∧
      ChessBoard.initialBoard.sideToMove = Colour.white ∧
      ∃ b' u, ChessBoard.makeMove ChessBoard.initialBoard
            { fromRank := 0, fromFile := 3, toRank := 0, toFile := 5 } = Except.ok b' ∧
          b'.history = u :: ChessBoard.initialBoard.history ∧
          u.capturedPiece = ChessBoard.initialBoard.squares 0 5 :=
  ⟨by decide, by decide, by decide, by decide,
    C9_non_ep_makeMove_succeeds ChessBoard.initialBoard
      { fromRank := 0, fromFile := 3, toRank := 0, toFile := 5 }
      { type := PieceType.queen, colour := Colour.white }
      (by decide) (by decide) (by decide) (by decide) (by decide) (by decide) (by decide)⟩

namespace ChessBoard

theorem updateRightsKing_clears {cr : CastlingRights} {p : Piece}
    (ht : p.type = PieceType.king) :
    (p.colour = Colour.white →
      (updateRightsKing cr p).whiteK = false ∧ (updateRightsKing cr p).whiteQ = false) ∧
    (p.colour = Colour.black →
      (updateRightsKing cr p).blackK = false ∧ (updateRightsKing cr p).blackQ = false) := by
  unfold updateRightsKing
  rw [if_pos ht]
  constructor
  · intro hc
    rw [if_pos hc]
    exact ⟨rfl, rfl⟩
  · intro hc
    rw [if_neg (by rw [hc]; exact fun h => Colour.noConfusion h)]
    exact ⟨rfl, rfl⟩

theorem updateRightsRookMove_clears {cr : CastlingRights} {p : Piece} {m : Move}
    (ht : p.type = PieceType.rook) :
    (p.colour = Colour.white → m.fromRank = 0 → m.fromFile = 7 →
      (updateRightsRookMove cr p m).whiteK = false) ∧
    (p.colour = Colour.white → m.fromRank = 0 → m.fromFile = 0 →
      (updateRightsRookMove cr p m).whiteQ = false) ∧
    (p.colour = Colour.black → m.fromRank = 7 → m.fromFile = 7 →
      (updateRightsRookMove cr p m).blackK = false) ∧
    (p.colour = Colour.black → m.fromRank = 7 → m.fromFile = 0 →
      (updateRightsRookMove cr p m).blackQ = false) := by
  refine ⟨?_, ?_, ?_, ?_⟩ <;> intro hc h1 h2 <;>
    simp [updateRightsRookMove, ht, hc, h1, h2]

theorem updateRightsCapture_clears {cr : CastlingRights} {cp : Piece} {m : Move}
    (ht : cp.type = PieceType.rook) :
    (cp.colour = Colour.white → m.toRank = 0 → m.toFile = 7 →
      (updateRightsCapture cr (some cp) m).whiteK = false) ∧
    (cp.colour = Colour.white → m.toRank = 0 → m.toFile = 0 →
      (updateRightsCapture cr (some cp) m).whiteQ = false) ∧
    (cp.colour = Colour.black → m.toRank = 7 → m.toFile = 7 →
      (updateRightsCapture cr (some cp) m).blackK = false) ∧
    (cp.colour = Colour.black → m.toRank = 7 → m.toFile = 0 →
      (updateRightsCapture cr (some cp) m).blackQ = false) := by
  refine ⟨?_, ?_, ?_, ?_⟩ <;> intro hc h1 h2 <;>
    simp [updateRightsCapture, ht, hc, h1, h2]

theorem updateRightsKing_true {cr : CastlingRights} {p : Piece} :
    ((updateRightsKing cr p).whiteK = true → cr.whiteK = true) ∧
    ((updateRightsKing cr p).whiteQ = true → cr.whiteQ = true) ∧
    ((updateRightsKing cr p).blackK = true → cr.blackK = true) ∧
    ((updateRightsKing cr p).blackQ = true → cr.blackQ = true) := by
  unfold updateRightsKing
  split_ifs <;> simp

theorem updateRightsRookMove_true {cr : CastlingRights} {p : Piece} {m : Move} :
    ((updateRightsRookMove cr p m).whiteK = true → cr.whiteK = true) ∧
    ((updateRightsRookMove cr p m).whiteQ = true → cr.whiteQ = true) ∧
    ((updateRightsRookMove cr p m).blackK = true → cr.blackK = true) ∧
    ((updateRightsRookMove cr p m).blackQ = true → cr.blackQ = true) := by
  unfold updateRightsRookMove
  dsimp only
  split_ifs <;> simp

theorem updateRightsCapture_true {cr : CastlingRights} {captured : Option Piece} {m : Move} :
    ((updateRightsCapture cr captured m).whiteK = true → cr.whiteK = true) ∧
    ((updateRightsCapture cr captured m).whiteQ = true → cr.whiteQ = true) ∧
    ((updateRightsCapture cr captured m).blackK = true → cr.blackK = true) ∧
    ((updateRightsCapture cr captured m).blackQ = true → cr.blackQ = true) := by
  unfold updateRightsCapture
  rcases captured with - | cp
  · simp
  · dsimp only
    split_ifs <;> simp

theorem updateRightsRookMove_false {cr : CastlingRights} {p : Piece} {m : Move} :
    (cr.whiteK = false → (updateRightsRookMove cr p m).whiteK = false) ∧
    (cr.whiteQ = false → (updateRightsRookMove cr p m).whiteQ = false) ∧
    (cr.blackK = false → (updateRightsRookMove cr p m).blackK = false) ∧
    (cr.blackQ = false → (updateRightsRookMove cr p m).blackQ = false) := by
  unfold updateRightsRookMove
  dsimp only
  split_ifs <;> simp

theorem updateRightsCapture_false {cr : CastlingRights} {captured : Option Piece} {m : Move} :
    (cr.whiteK = false → (updateRightsCapture cr captured m).whiteK = false) ∧
    (cr.whiteQ = false → (updateRightsCapture cr captured m).whiteQ = false) ∧
    (cr.blackK = false → (updateRightsCapture cr captured m).blackK = false) ∧
    (cr.blackQ = false → (updateRightsCapture cr captured m).blackQ = false) := by
  unfold updateRightsCapture
  rcases captured with - | cp
  · simp
  · dsimp only
    split_ifs <;> simp

end ChessBoard

/-- Claim C7 (amended): after a successful `makeMove`, a king move clears
both rights of its colour; a rook leaving its home corner clears that
corner's right; a captured rook on its own home corner (the code tests the
captured piece's type, so only a rook capture — not any piece on the corner
— clears the right) clears that corner's right; and no right that was false
ever becomes true. -/
theorem C7_castling_rights_update (b : ChessBoard) (m : Move) (b' : ChessBoard)
    (piece : Piece) (hok : ChessBoard.makeMove b m = Except.ok b')
    (hp : b.squares m.fromRank m.fromFile = some piece) :
    (piece.type = PieceType.king → piece.colour = Colour.white →
      b'.castlingRights.whiteK = false ∧ b'.castlingRights.whiteQ = false) ∧
    (piece.type = PieceType.king → piece.colour = Colour.black →
      b'.castlingRights.blackK = false ∧ b'.castlingRights.blackQ = false) ∧
    (piece.type = PieceType.rook → piece.colour = Colour.white →
      m.fromRank = 0 → m.fromFile = 7 → b'.castlingRights.whiteK = false) ∧
    (piece.type = PieceType.rook → piece.colour = Colour.white →
      m.fromRank = 0 → m.fromFile = 0 → b'.castlingRights.whiteQ = false) ∧
    (piece.type = PieceType.rook → piece.colour = Colour.black →
      m.fromRank = 7 → m.fromFile = 7 → b'.castlingRights.blackK = false) ∧
    (piece.type = PieceType.rook → piece.colour = Colour.black →
      m.fromRank = 7 → m.fromFile = 0 → b'.castlingRights.blackQ = false) ∧
    (∀ cp : Piece, m.enPassant = false → b.squares m.toRank m.toFile = some cp →
      cp.type = PieceType.rook →
      (cp.colour = Colour.white → m.toRank = 0 → m.toFile = 7 →
        b'.castlingRights.whiteK = false) ∧
      (cp.colour = Colour.white → m.toRank = 0 → m.toFile = 0 →
        b'.castlingRights.whiteQ = false) ∧
      (cp.colour = Colour.black → m.toRank = 7 → m.toFile = 7 →
        b'.castlingRights.blackK = false) ∧
      (cp.colour = Colour.black → m.toRank = 7 → m.toFile = 0 →
        b'.castlingRights.blackQ = false)) ∧
    (b'.castlingRights.whiteK = true → b.castlingRights.whiteK = true) ∧
    (b'.castlingRights.whiteQ = true → b.castlingRights.whiteQ = true) ∧
    (b'.castlingRights.blackK = true → b.castlingRights.blackK = true) ∧
    (b'.castlingRights.blackQ = true → b.castlingRights.blackQ = true) := by
  obtain ⟨piece', captured, cs, sq1, hp', hc', hres, rfl⟩ := ChessBoard.makeMove_ok_inv hok
  rw [hp] at hp'
  obtain rfl := Option.some.inj hp'
  have hcr : (ChessBoard.makeMoveResult b m piece captured cs sq1).castlingRights =
      ChessBoard.updateRightsCapture
        (ChessBoard.updateRightsRookMove
          (ChessBoard.updateRightsKing b.castlingRights piece) piece m) captured m := rfl
  rw [hcr]
  refine ⟨?_, ?_, ?_, ?_, ?_, ?_, ?_, ?_, ?_, ?_, ?_⟩
  · intro ht hc
    obtain ⟨h1, h2⟩ := (ChessBoard.updateRightsKing_clears ht).1 hc
    exact ⟨ChessBoard.updateRightsCapture_false.1 (ChessBoard.updateRightsRookMove_false.1 h1),
      ChessBoard.updateRightsCapture_false.2.1 (ChessBoard.updateRightsRookMove_false.2.1 h2)⟩
  · intro ht hc
    obtain ⟨h1, h2⟩ := (ChessBoard.updateRightsKing_clears ht).2 hc
    exact ⟨ChessBoard.updateRightsCapture_false.2.2.1
        (ChessBoard.updateRightsRookMove_false.2.2.1 h1),
      ChessBoard.updateRightsCapture_false.2.2.2
        (ChessBoard.updateRightsRookMove_false.2.2.2 h2)⟩
  · intro ht hc h1 h2
    exact ChessBoard.updateRightsCapture_false.1
      ((ChessBoard.updateRightsRookMove_clears ht).1 hc h1 h2)
  · intro ht hc h1 h2
    exact ChessBoard.updateRightsCapture_false.2.1
      ((ChessBoard.updateRightsRookMove_clears ht).2.1 hc h1 h2)
  · intro ht hc h1 h2
    exact ChessBoard.updateRightsCapture_false.2.2.1
      ((ChessBoard.updateRightsRookMove_clears ht).2.2.1 hc h1 h2)
  · intro ht hc h1 h2
    exact ChessBoard.updateRightsCapture_false.2.2.2
      ((ChessBoard.updateRightsRookMove_clears ht).2.2.2 hc h1 h2)
  · intro cp hepf hsq htc
    rcases ChessBoard.resolveCapture_inv hres with ⟨-, hcap, -, -⟩ | ⟨hept, -⟩
    · rw [hsq] at hcap
      subst hcap
      exact ChessBoard.updateRightsCapture_clears htc
    · rw [hepf] at hept
      cases hept
  · exact fun h => ChessBoard.updateRightsKing_true.1
      (ChessBoard.updateRightsRookMove_true.1 (ChessBoard.updateRightsCapture_true.1 h))
  · exact fun h => ChessBoard.updateRightsKing_true.2.1
      (ChessBoard.updateRightsRookMove_true.2.1 (ChessBoard.updateRightsCapture_true.2.1 h))
  · exact fun h => ChessBoard.updateRightsKing_true.2.2.1
      (ChessBoard.updateRightsRookMove_true.2.2.1 (ChessBoard.updateRightsCapture_true.2.2.1 h))
  · exact fun h => ChessBoard.updateRightsKing_true.2.2.2
      (ChessBoard.updateRightsRookMove_true.2.2.2 (ChessBoard.updateRightsCapture_true.2.2.2 h))

/-- Claim C8 (amended): after every successful `makeMove` the en passant
target equals a function of the moved piece and the move alone — set exactly
when a pawn moved two ranks (in either direction, on any file: the code
checks only `|toRank − fromRank| = 2`), to the mid rank on the move's source
file, and cleared otherwise.  In particular the pre-move target never
survives the call. -/
theorem C8_ep_target_lifecycle (b : ChessBoard) (m : Move) (b' : ChessBoard)
    (piece : Piece) (hok : ChessBoard.makeMove b m = Except.ok b')
    (hp : b.squares m.fromRank m.fromFile = some piece) :
    b'.enPassantTarget =
      if piece.type = PieceType.pawn ∧
          ((m.toRank : Int) - (m.fromRank : Int) = 2 ∨
            (m.toRank : Int) - (m.fromRank : Int) = -2)
      then some { rank := (m.fromRank + m.toRank) / 2, file := m.fromFile }
      else none := by
  obtain ⟨piece', captured, cs, sq1, hp', hc', hres, rfl⟩ := ChessBoard.makeMove_ok_inv hok
  rw [hp] at hp'
  obtain rfl := Option.some.inj hp'
  rfl

/-- The success state of an executor call, when there is one. -/
def exceptOkBoard : Except ChessBoard ChessBoard → Option ChessBoard
  | Except.ok s => some s
  | Except.error _ => none

/-- The thrown state of an executor call, when it failed. -/
def exceptErrorBoard : Except ChessBoard ChessBoard → Option ChessBoard
  | Except.error s => some s
  | Except.ok _ => none

/-- White king e1, white rook h1, black king e8: every castling precondition
of the specification holds kingside for white. -/
def cex3Board : ChessBoard :=
  { squares :=
      setPiece (setPiece (setPiece (fun _ _ => none)
        0 4 (some { type := PieceType.king, colour := Colour.white }))
        0 7 (some { type := PieceType.rook, colour := Colour.white }))
        7 4 (some { type := PieceType.king, colour := Colour.black }),
    history := [],
    sideToMove := Colour.white,
    castlingRights := { whiteK := true, whiteQ := true, blackK := true, blackQ := true },
    enPassantTarget := none,
    halfMoveClock := 0,
    fullMoveNumber := 1 }

/-- Counterexample to C3 as stated: on `cex3Board` the kingside castling
right is set, the squares between king and rook are empty, and e1, f1, g1
are unattacked by black, yet neither generator offers any move carrying a
castle tag from the king's square. -/
theorem C3_counterexample_no_castle_offered :
    cex3Board.castlingRights.whiteK = true ∧
    cex3Board.squares 0 4 = some { type := PieceType.king, colour := Colour.white } ∧
    cex3Board.squares 0 7 = some { type := PieceType.rook, colour := Colour.white } ∧
    cex3Board.squares 0 5 = none ∧
    cex3Board.squares 0 6 = none ∧
    ChessBoard.isSquareAttacked cex3Board 0 4 Colour.black = false ∧
    ChessBoard.isSquareAttacked cex3Board 0 5 Colour.black = false ∧
    ChessBoard.isSquareAttacked cex3Board 0 6 Colour.black = false ∧
    (ChessBoard.getPseudoLegalMoves cex3Board 0 4).filter
      (fun mv => decide (mv.castle ≠ none)) = [] ∧
    (MoveGenerator.getPseudoLegalMoves cex3Board).filter
      (fun mv => decide (mv.castle ≠ none)) = [] := by
  decide

/-- Claim C3 (amended): the pseudo-legal move generators never offer a
castling move — under any conditions; every move they emit has an empty
castle tag. -/
theorem C3_no_castle_generated (b : ChessBoard) (r f : Nat) (m : Move)
    (h : m ∈ ChessBoard.getPseudoLegalMoves b r f ∨
      m ∈ MoveGenerator.getPseudoLegalMoves b) :
    m.castle = none := by
  rcases h with h | h
  · exact (ChessBoard.getPseudoLegalMoves_shape h).1
  · exact (MoveGenerator.wholeSideMoves_shape h).1

/-- Witness for the amended C3 at a concrete input: the knight move b1–a3
from the initial position. -/
theorem C3_no_castle_generated_witness :
    (({ fromRank := 0, fromFile := 1, toRank := 2, toFile := 0 } : Move) ∈
        ChessBoard.getPseudoLegalMoves ChessBoard.initialBoard 0 1 ∨
      ({ fromRank := 0, fromFile := 1, toRank := 2, toFile := 0 } : Move) ∈
        MoveGenerator.getPseudoLegalMoves ChessBoard.initialBoard) ∧
    ({ fromRank := 0, fromFile := 1, toRank := 2, toFile := 0 } : Move).castle = none :=
  ⟨Or.inl (by decide),
    C3_no_castle_generated ChessBoard.initialBoard 0 1
      { fromRank := 0, fromFile := 1, toRank := 2, toFile := 0 } (Or.inl (by decide))⟩

/-- A single white pawn one step from the last rank. -/
def cex4Board : ChessBoard :=
  { squares :=
      setPiece (fun _ _ => none) 6 0 (some { type := PieceType.pawn, colour := Colour.white }),
    history := [],
    sideToMove := Colour.white,
    castlingRights := { whiteK := true, whiteQ := true, blackK := true, blackQ := true },
    enPassantTarget := none,
    halfMoveClock := 0,
    fullMoveNumber := 1 }

/-- Counterexample to C4 as stated: the pawn on a7 whose forward move
reaches the last rank generates exactly one move, and that move carries no
promotion piece type — not one move per promotion choice. -/
theorem C4_counterexample_no_promotion_generated :
    cex4Board.squares 6 0 = some { type := PieceType.pawn, colour := Colour.white } ∧
    cex4Board.squares 7 0 = none ∧
    ChessBoard.getPseudoLegalMoves cex4Board 6 0 =
      [{ fromRank := 6, fromFile := 0, toRank := 7, toFile := 0 }] ∧
    ({ fromRank := 6, fromFile := 0, toRank := 7, toFile := 0 } : Move).promotion = none := by
  decide

/-- Claim C4 (amended): the pseudo-legal move generators never attach a
promotion piece type — a pawn move onto the last rank is emitted exactly
once, with an empty promotion field. -/
theorem C4_no_promotion_generated (b : ChessBoard) (r f : Nat) (m : Move)
    (h : m ∈ ChessBoard.getPseudoLegalMoves b r f ∨
      m ∈ MoveGenerator.getPseudoLegalMoves b) :
    m.promotion = none := by
  rcases h with h | h
  · exact (ChessBoard.getPseudoLegalMoves_shape h).2
  · exact (MoveGenerator.wholeSideMoves_shape h).2

/-- Witness for the amended C4 at a concrete input: the last-rank pawn move
a7–a8 on `cex4Board`. -/
theorem C4_no_promotion_generated_witness :
    (({ fromRank := 6, fromFile := 0, toRank := 7, toFile := 0 } : Move) ∈
        ChessBoard.getPseudoLegalMoves cex4Board 6 0 ∨
      ({ fromRank := 6, fromFile := 0, toRank := 7, toFile := 0 } : Move) ∈
        MoveGenerator.getPseudoLegalMoves cex4Board) ∧
    ({ fromRank := 6, fromFile := 0, toRank := 7, toFile := 0 } : Move).promotion = none :=
  ⟨Or.inl (by decide),
    C4_no_promotion_generated cex4Board 6 0
      { fromRank := 6, fromFile := 0, toRank := 7, toFile := 0 } (Or.inl (by decide))⟩

/-- White queen a1, black knight h8. -/
def cex7Board : ChessBoard :=
  { squares :=
      setPiece (setPiece (fun _ _ => none)
        0 0 (some { type := PieceType.queen, colour := Colour.white }))
        7 7 (some { type := PieceType.knight, colour := Colour.black }),
    history := [],
    sideToMove := Colour.white,
    castlingRights := { whiteK := true, whiteQ := true, blackK := true, blackQ := true },
    enPassantTarget := none,
    halfMoveClock := 0,
    fullMoveNumber := 1 }

/-- Counterexample to C7 as stated: capturing the black knight — an enemy
piece — on black's kingside rook home corner h8 leaves `blackK` set, because
the code clears a right only when the captured piece is itself a rook. -/
theorem C7_counterexample_knight_capture_keeps_right :
    cex7Board.castlingRights.blackK = true ∧
    cex7Board.squares 7 7 = some { type := PieceType.knight, colour := Colour.black } ∧
    (exceptOkBoard (ChessBoard.makeMove cex7Board
        { fromRank := 0, fromFile := 0, toRank := 7, toFile := 7 })).map
      (fun x => x.castlingRights.blackK) = some true := by
  decide

/-- The move used for the C7 witness: the white king jumps e1–e3 (the
executor checks no geometry, so this succeeds and exercises the king
clause). -/
def c7Move : Move := { fromRank := 0, fromFile := 4, toRank := 2, toFile := 4 }

/-- The state after the C7 witness move. -/
def c7After : ChessBoard :=
  (exceptOkBoard (ChessBoard.makeMove ChessBoard.initialBoard c7Move)).getD emptyTestBoard

/-- Witness for the amended C7 at a concrete input: the white king leaves
e1, so both white rights are cleared, no right is newly set, and the rook
clauses hold vacuously. -/
theorem C7_castling_rights_update_witness :
    ChessBoard.makeMove ChessBoard.initialBoard c7Move = Except.ok c7After ∧
    ChessBoard.initialBoard.squares c7Move.fromRank c7Move.fromFile =
      some { type := PieceType.king, colour := Colour.white } ∧
    (((PieceType.king = PieceType.king → Colour.white = Colour.white →
        c7After.castlingRights.whiteK = false ∧ c7After.castlingRights.whiteQ = false) ∧
      (PieceType.king = PieceType.king → Colour.white = Colour.black →
        c7After.castlingRights.blackK = false ∧ c7After.castlingRights.blackQ = false) ∧
      (PieceType.king = PieceType.rook → Colour.white = Colour.white →
        c7Move.fromRank = 0 → c7Move.fromFile = 7 → c7After.castlingRights.whiteK = false) ∧
      (PieceType.king = PieceType.rook → Colour.white = Colour.white →
        c7Move.fromRank = 0 → c7Move.fromFile = 0 → c7After.castlingRights.whiteQ = false) ∧
      (PieceType.king = PieceType.rook → Colour.white = Colour.black →
        c7Move.fromRank = 7 → c7Move.fromFile = 7 → c7After.castlingRights.blackK = false) ∧
      (PieceType.king = PieceType.rook → Colour.white = Colour.black →
        c7Move.fromRank = 7 → c7Move.fromFile = 0 → c7After.castlingRights.blackQ = false) ∧
      (∀ cp : Piece, c7Move.enPassant = false →
        ChessBoard.initialBoard.squares c7Move.toRank c7Move.toFile = some cp →
        cp.type = PieceType.rook →
        (cp.colour = Colour.white → c7Move.toRank = 0 → c7Move.toFile = 7 →
          c7After.castlingRights.whiteK = false) ∧
        (cp.colour = Colour.white → c7Move.toRank = 0 → c7Move.toFile = 0 →
          c7After.castlingRights.whiteQ = false) ∧
        (cp.colour = Colour.black → c7Move.toRank = 7 → c7Move.toFile = 7 →
          c7After.castlingRights.blackK = false) ∧
        (cp.colour = Colour.black → c7Move.toRank = 7 → c7Move.toFile = 0 →
          c7After.castlingRights.blackQ = false)) ∧
      (c7After.castlingRights.whiteK = true →
        ChessBoard.initialBoard.castlingRights.whiteK = true) ∧
      (c7After.castlingRights.whiteQ = true →
        ChessBoard.initialBoard.castlingRights.whiteQ = true) ∧
      (c7After.castlingRights.blackK = true →
        ChessBoard.initialBoard.castlingRights.blackK = true) ∧
      (c7After.castlingRights.blackQ = true →
        ChessBoard.initialBoard.castlingRights.blackQ = true))) :=
  ⟨rfl, by decide,
    C7_castling_rights_update ChessBoard.initialBoard c7Move c7After
      { type := PieceType.king, colour := Colour.white } rfl (by decide)⟩

/-- A single white pawn on a2. -/
def cex8Board : ChessBoard :=
  { squares :=
      setPiece (fun _ _ => none) 1 0 (some { type := PieceType.pawn, colour := Colour.white }),
    history := [],
    sideToMove := Colour.white,
    castlingRights := { whiteK := true, whiteQ := true, blackK := true, blackQ := true },
    enPassantTarget := none,
    halfMoveClock := 0,
    fullMoveNumber := 1 }

/-- Counterexample to C8 as stated: the pawn "move" a2–f4 changes file by
five squares, so it is no two-square pawn advance and f4 has no square
between source and destination on one file — yet `makeMove` accepts it and
sets the en passant target (to a3, the source file's mid rank). -/
theorem C8_counterexample_sideways_double_step :
    cex8Board.squares 1 0 = some { type := PieceType.pawn, colour := Colour.white } ∧
    ({ fromRank := 1, fromFile := 0, toRank := 3, toFile := 5 } : Move).toFile ≠
      ({ fromRank := 1, fromFile := 0, toRank := 3, toFile := 5 } : Move).fromFile ∧
    (exceptOkBoard (ChessBoard.makeMove cex8Board
        { fromRank := 1, fromFile := 0, toRank := 3, toFile := 5 })).map
      (fun x => x.enPassantTarget) = some (some { rank := 2, file := 0 }) := by
  decide

/-- The move used for the C8 witness: the double step e2–e4. -/
def c8Move : Move := { fromRank := 1, fromFile := 4, toRank := 3, toFile := 4 }

/-- The state after the C8 witness move. -/
def c8After : ChessBoard :=
  (exceptOkBoard (ChessBoard.makeMove ChessBoard.initialBoard c8Move)).getD emptyTestBoard

/-- Witness for the amended C8 at a concrete input: e2–e4 sets the target to
e3. -/
theorem C8_ep_target_lifecycle_witness :
    ChessBoard.makeMove ChessBoard.initialBoard c8Move = Except.ok c8After ∧
    ChessBoard.initialBoard.squares c8Move.fromRank c8Move.fromFile =
      some { type := PieceType.pawn, colour := Colour.white } ∧
    c8After.enPassantTarget =
      (if ({ type := PieceType.pawn, colour := Colour.white } : Piece).type = PieceType.pawn ∧
          ((c8Move.toRank : Int) - (c8Move.fromRank : Int) = 2 ∨
            (c8Move.toRank : Int) - (c8Move.fromRank : Int) = -2)
       then some { rank := (c8Move.fromRank + c8Move.toRank) / 2, file := c8Move.fromFile }
       else none) :=
  ⟨rfl, by decide,
    C8_ep_target_lifecycle ChessBoard.initialBoard c8Move c8After
      { type := PieceType.pawn, colour := Colour.white } rfl (by decide)⟩

/-- Black to move with the en passant target e3 set (as after white's e2–e4);
black's only piece is a pawn on a7 and b6 is empty, so the declared
en-passant move a7–b6 has no victim. -/
def cex5Board : ChessBoard :=
  { squares :=
      setPiece (fun _ _ => none) 6 0 (some { type := PieceType.pawn, colour := Colour.black }),
    history := [],
    sideToMove := Colour.black,
    castlingRights := { whiteK := true, whiteQ := true, blackK := true, blackQ := true },
    enPassantTarget := some { rank := 2, file := 4 },
    halfMoveClock := 0,
    fullMoveNumber := 2 }

/-- C5 fails on the code: the invalid en-passant call throws, but only after
`makeMove` has already cleared the en passant target, so the failed call
leaves an observable mutation (the pre-call target e3 is gone). -/
theorem C5_failed_makeMove_clears_ep_target :
    cex5Board.enPassantTarget = some { rank := 2, file := 4 } ∧
    (exceptErrorBoard (ChessBoard.makeMove cex5Board
        { fromRank := 6, fromFile := 0, toRank := 5, toFile := 1, enPassant := true })).map
      (fun s => s.enPassantTarget) = some none ∧
    (exceptErrorBoard (ChessBoard.makeMove cex5Board
        { fromRank := 6, fromFile := 0, toRank := 5, toFile := 1, enPassant := true })).map
      (fun s => s.squares 6 0) =
      some (some { type := PieceType.pawn, colour := Colour.black }) := by
  decide

/-- White pawn c5 may capture the black d5 pawn en passant (the stale target
d6 is set), but a black knight happens to stand on the target square d6, so
the speculative `makeMove` of the generated en-passant candidate throws
inside the filter. -/
def cex2Board : ChessBoard :=
  { squares :=
      setPiece (setPiece (setPiece (fun _ _ => none)
        4 2 (some { type := PieceType.pawn, colour := Colour.white }))
        4 3 (some { type := PieceType.pawn, colour := Colour.black }))
        5 3 (some { type := PieceType.knight, colour := Colour.black }),
    history := [],
    sideToMove := Colour.white,
    castlingRights := { whiteK := true, whiteQ := true, blackK := true, blackQ := true },
    enPassantTarget := some { rank := 5, file := 3 },
    halfMoveClock := 0,
    fullMoveNumber := 1 }

/-- C2 fails on the code: the legal-move filter propagates the exception
(`none` result) and exits with the board mutated — the en passant target that
was set before the call has been cleared by the failed speculative
`makeMove`, which mutates before it validates. -/
theorem C2_filter_failure_leaves_board_mutated :
    cex2Board.enPassantTarget = some { rank := 5, file := 3 } ∧
    (LegalMoveFilter.getLegalMoves cex2Board 4 2).2 = none ∧
    (LegalMoveFilter.getLegalMoves cex2Board 4 2).1.enPassantTarget = none := by
  decide
